import Mathlib

/-
Verification model of the Kaleidoscope front end in src/toy.cpp
(repository AbhishekKaisar/kaleidoscope-llvm).

The C++ source is shallowly embedded: machine doubles are modelled as exact
rationals (every literal and arithmetic operation exercised here is exact),
the LLVM emitter is modelled as a module of functions holding instruction
lists, and the global mutable state (lexer globals, CurTok, NamedValues,
TheModule, the builder insert point) is threaded explicitly.  Recursive
procedures whose termination is not structural in the C++ (the parser, the
comment-skipping lexer, codegen over the AST, the IR evaluator) take a fuel
argument so that every definition is structural and kernel-evaluable; fuel
exhaustion returns the failure value and is never reached at the fuel
budgets used below.
-/

set_option maxRecDepth 8000

/-! ## Character classification (C ctype functions, ASCII range) -/

/-- Models C `isspace` on the characters the program reads. -/
def isspaceC (c : Char) : Bool :=
  c = ' ' || c = '\t' || c = '\n' || c = '\r' || c = '\x0b' || c = '\x0c'

/-- Models C `isalpha` (C locale). -/
def isalphaC (c : Char) : Bool :=
  ('A' ≤ c && c ≤ 'Z') || ('a' ≤ c && c ≤ 'z')

/-- Models C `isdigit`. -/
def isdigitC (c : Char) : Bool :=
  '0' ≤ c && c ≤ '9'

/-- Models C `isalnum`. -/
def isalnumC (c : Char) : Bool :=
  isalphaC c || isdigitC c

/-! ## strtod on the digit-and-dot strings produced by the number rule -/

/-- Accumulates decimal digits into a natural number. -/
def digitsToNat : List Char → ℕ → ℕ
  | [], acc => acc
  | c :: rest, acc => digitsToNat rest (acc * 10 + (c.toNat - '0'.toNat))

/-- Splits off the longest prefix of decimal digits. -/
def spanDigits : List Char → List Char × List Char
  | [] => ([], [])
  | c :: rest =>
    if isdigitC c then
      let (ds, r) := spanDigits rest
      (c :: ds, r)
    else ([], c :: rest)

/-- Models C `strtod` (src/toy.cpp line 291) restricted to the strings the
lexer's number rule can produce (nonempty runs of digits and dots): parse an
optional integer part, then at most one dot followed by an optional fraction
part, stopping at the first unconvertible character; no conversion yields 0.
The result is the exact decimal value `I.F = (I*10^L + F) / 10^L` as a
rational. -/
def strtodQ (s : String) : ℚ :=
  let cs := s.toList
  let (ip, rest) := spanDigits cs
  let fp : List Char :=
    match rest with
    | '.' :: r => (spanDigits r).1
    | _ => []
  let scale := Nat.pow 10 fp.length
  mkRat (Int.ofNat (digitsToNat ip 0 * scale + digitsToNat fp 0)) scale

/-! ## Lexer (src/toy.cpp lines 13-24, 266-307) -/

/-- Models `enum Token` plus the "any other character returned verbatim"
case of `gettok` (line 304-306).  Like the C++ `int` token code, this does
not carry the identifier text or numeric value: those stay in the
`IdentifierStr` / `NumVal` globals, modelled in `LexSt`. -/
inductive CTok where
  | eof
  | kDef
  | kExtern
  | kVar
  | ident
  | number
  | ch (c : Char)
deriving DecidableEq, Repr

/-- The lexer's mutable state: `LastChar` (none = EOF), the remaining input
characters, and the `IdentifierStr` / `NumVal` globals. -/
structure LexSt where
  lastChar : Option Char
  input : List Char
  IdentifierStr : String
  NumVal : ℚ
deriving DecidableEq, Repr

/-- Models `getchar()`: pop the next character or report EOF. -/
def getcharL : List Char → Option Char × List Char
  | [] => (none, [])
  | c :: rest => (some c, rest)

/-- The whitespace loop of `gettok` (lines 270-271): skip while `isspace`.
`isspace(EOF)` is false, so EOF ends the loop with `LastChar = EOF`. -/
def skipWS : Option Char → List Char → Option Char × List Char
  | none, inp => (none, inp)
  | some c, inp =>
    if isspaceC c then
      match inp with
      | [] => (none, [])
      | c2 :: rest => skipWS (some c2) rest
    else (some c, inp)

/-- The identifier loop (lines 275-276): keep consuming alphanumerics,
leaving the first non-alphanumeric character (or EOF) in `LastChar`. -/
def readAlnum : String → List Char → String × Option Char × List Char
  | acc, [] => (acc, none, [])
  | acc, c :: rest =>
    if isalnumC c then readAlnum (acc.push c) rest else (acc, some c, rest)

/-- The number do-while loop body after the first character (lines 286-289):
keep consuming digits and dots. -/
def readNumLoop : String → List Char → String × Option Char × List Char
  | acc, [] => (acc, none, [])
  | acc, c :: rest =>
    if isdigitC c || c = '.' then readNumLoop (acc.push c) rest
    else (acc, some c, rest)

/-- The comment loop (lines 296-297): consume through end of line or EOF. -/
def skipComment : List Char → Option Char × List Char
  | [] => (none, [])
  | c :: rest =>
    if c = '\n' || c = '\r' then (some c, rest) else skipComment rest

/-- Models `gettok` (lines 266-307), fuelled for the comment recursion at
line 299.  Returns the token code and the updated lexer state (including the
`IdentifierStr` and `NumVal` globals, written only on the identifier and
number paths respectively, exactly as in the source). -/
def gettokF : ℕ → LexSt → CTok × LexSt
  | 0, s => (.eof, s)
  | fuel + 1, s =>
    let (lc, inp) := skipWS s.lastChar s.input
    match lc with
    | none => (.eof, { s with lastChar := none, input := inp })
    | some c =>
      if isalphaC c then
        let (idStr, lc2, inp2) := readAlnum (String.singleton c) inp
        let s2 := { s with lastChar := lc2, input := inp2, IdentifierStr := idStr }
        if idStr = "def" then (.kDef, s2)
        else if idStr = "extern" then (.kExtern, s2)
        else if idStr = "var" then (.kVar, s2)
        else (.ident, s2)
      else if isdigitC c || c = '.' then
        let (numStr, lc2, inp2) := readNumLoop (String.singleton c) inp
        (.number, { s with lastChar := lc2, input := inp2, NumVal := strtodQ numStr })
      else if c = '#' then
        let (lc2, inp2) := skipComment inp
        match lc2 with
        | some c2 => gettokF fuel { s with lastChar := some c2, input := inp2 }
        | none => (.eof, { s with lastChar := none, input := inp2 })
      else
        let (nc, inp2) := getcharL inp
        (.ch c, { s with lastChar := nc, input := inp2 })

/-- Runs `gettok` with enough fuel for the whole remaining input (each
comment recursion strictly consumes input, so this fuel always suffices). -/
def gettokRun (s : LexSt) : CTok × LexSt :=
  gettokF (s.input.length + 1) s

/-! ## AST (src/toy.cpp lines 40-63, 77-111, 113-121, 123-131, 154-162,
183-194, 231-239) -/

/-- The expression AST.  `DummyExpr` models `DummyExprAST` (lines 84-90),
the non-null placeholder returned by `LogError<std::unique_ptr<ExprAST>>`;
its codegen returns failure. -/
inductive ExprAST where
  | NumberExpr (Val : ℚ)
  | VariableExpr (Name : String)
  | BinaryExpr (Op : Char) (LHS RHS : ExprAST)
  | CallExpr (Callee : String) (Args : List ExprAST)
  | VarExpr (VarNames : List (String × Option ExprAST)) (Body : ExprAST)
  | DummyExpr

/-- Models `PrototypeAST` (lines 40-63). -/
structure PrototypeAST where
  Name : String
  Args : List String
deriving DecidableEq, Repr

/-- Models `FunctionAST` (lines 231-239). -/
structure FunctionAST where
  Proto : PrototypeAST
  Body : ExprAST

/-! ## Parser state and error logging (lines 65-102, 309-320) -/

/-- Parser state: the lexer state (which holds the `IdentifierStr` and
`NumVal` globals), the `CurTok` global, and the messages written to stderr
by `LogError` (without the fixed "Error: " prefix). -/
structure PState where
  lex : LexSt
  CurTok : CTok
  errors : List String
deriving DecidableEq, Repr

/-- Appends a diagnostic, modelling `std::cerr << "Error: " << Str`. -/
def LogErrorMsg (s : PState) (msg : String) : PState :=
  { s with errors := s.errors ++ [msg] }

/-- Models `LogError<std::unique_ptr<ExprAST>>` (lines 98-102): log the
message and return a NON-NULL `DummyExprAST`. -/
def LogErrorE (msg : String) (s : PState) : Option ExprAST × PState :=
  (some .DummyExpr, LogErrorMsg s msg)

/-- Models `LogError<std::unique_ptr<PrototypeAST>>` (lines 71-75): log the
message and return null. -/
def LogErrorP (msg : String) (s : PState) : Option PrototypeAST × PState :=
  (none, LogErrorMsg s msg)

/-- Models `getNextToken` (line 311): `CurTok = gettok()`. -/
def getNextToken (s : PState) : PState :=
  let (t, lx) := gettokRun s.lex
  { s with lex := lx, CurTok := t }

/-- The `BinopPrecedence` table as installed by `main` (lines 527-530).
Unknown keys read 0, modelling the default value `std::map::operator[]`
inserts (the insertion itself has no observable effect). -/
def BinopPrecedence (c : Char) : Int :=
  if c = '<' then 10
  else if c = '+' then 20
  else if c = '-' then 20
  else if c = '*' then 40
  else 0

/-- Models `GetTokPrecedence` (lines 313-320): token codes (negative ints)
fail `isascii`; characters look up the precedence table, and a table value
`<= 0` yields -1, terminating binary-expression parsing. -/
def GetTokPrecedence (t : CTok) : Int :=
  match t with
  | .ch c =>
    if c.toNat ≤ 127 then
      let p := BinopPrecedence c
      if p ≤ 0 then -1 else p
    else -1
  | _ => -1

/-- Extracts the operator character from `CurTok`, modelling the int-to-char
narrowing in `BinaryExprAST(BinOp, ...)` (line 445); only reached when the
precedence check has established a character token. -/
def curTokChar : CTok → Char
  | .ch c => c
  | _ => '\x00'

/-- Models `ParseNumberExpr` (lines 326-330). -/
def ParseNumberExprP (s : PState) : Option ExprAST × PState :=
  let Result := ExprAST.NumberExpr s.lex.NumVal
  (some Result, getNextToken s)

/-- Result of the argument-list loop in `ParseIdentifierExpr`
(lines 354-366): break at `')'` with the arguments, propagate null, or
return the logged `DummyExprAST` directly from `ParseIdentifierExpr`. -/
inductive ArgsLoopRes where
  | ok (args : List ExprAST)
  | nullRes
  | errRes

/-- Result of the binding-list loop in `ParseVarExpr` (lines 380-400). -/
inductive VarLoopRes where
  | ok (vs : List (String × Option ExprAST))
  | nullRes
  | errRes

mutual

/-- Models `ParseExpression` (lines 449-455). -/
def ParseExpressionF : ℕ → PState → Option ExprAST × PState
  | 0, s => (none, s)
  | f + 1, s =>
    match ParsePrimaryF f s with
    | (none, s1) => (none, s1)
    | (some LHS, s1) => ParseBinOpRHSF f 0 LHS s1

/-- Models `ParseBinOpRHS` (lines 424-447): precedence climbing with
single-token lookahead; each `while(true)` iteration is one recursive
step. -/
def ParseBinOpRHSF : ℕ → Int → ExprAST → PState → Option ExprAST × PState
  | 0, _, _, s => (none, s)
  | f + 1, ExprPrec, LHS, s =>
    let TokPrec := GetTokPrecedence s.CurTok
    if TokPrec < ExprPrec then (some LHS, s)
    else
      let BinOp := curTokChar s.CurTok
      let s1 := getNextToken s
      match ParsePrimaryF f s1 with
      | (none, s2) => (none, s2)
      | (some RHS0, s2) =>
        let NextPrec := GetTokPrecedence s2.CurTok
        let rhsRes : Option ExprAST × PState :=
          if TokPrec < NextPrec then ParseBinOpRHSF f (TokPrec + 1) RHS0 s2
          else (some RHS0, s2)
        match rhsRes with
        | (none, s3) => (none, s3)
        | (some RHS, s3) =>
          ParseBinOpRHSF f ExprPrec (.BinaryExpr BinOp LHS RHS) s3

/-- Models `ParsePrimary` (lines 414-422). -/
def ParsePrimaryF : ℕ → PState → Option ExprAST × PState
  | 0, s => (none, s)
  | f + 1, s =>
    match s.CurTok with
    | .ident => ParseIdentifierExprF f s
    | .number => ParseNumberExprP s
    | .ch '(' => ParseParenExprF f s
    | .kVar => ParseVarExprF f s
    | _ => LogErrorE "unknown token when expecting an expression" s

/-- Models `ParseParenExpr` (lines 332-341). -/
def ParseParenExprF : ℕ → PState → Option ExprAST × PState
  | 0, s => (none, s)
  | f + 1, s =>
    let s1 := getNextToken s
    match ParseExpressionF f s1 with
    | (none, s2) => (none, s2)
    | (some V, s2) =>
      if s2.CurTok ≠ .ch ')' then LogErrorE "expected \x27)\x27" s2
      else (some V, getNextToken s2)

/-- Models `ParseIdentifierExpr` (lines 343-370). -/
def ParseIdentifierExprF : ℕ → PState → Option ExprAST × PState
  | 0, s => (none, s)
  | f + 1, s =>
    let IdName := s.lex.IdentifierStr
    let s1 := getNextToken s
    if s1.CurTok ≠ .ch '(' then (some (.VariableExpr IdName), s1)
    else
      let s2 := getNextToken s1
      if s2.CurTok = .ch ')' then
        (some (.CallExpr IdName []), getNextToken s2)
      else
        match ParseArgsF f [] s2 with
        | (.nullRes, s3) => (none, s3)
        | (.errRes, s3) => (some .DummyExpr, s3)
        | (.ok args, s3) => (some (.CallExpr IdName args), getNextToken s3)

/-- The argument-list `while(true)` loop of `ParseIdentifierExpr`
(lines 354-366). -/
def ParseArgsF : ℕ → List ExprAST → PState → ArgsLoopRes × PState
  | 0, _, s => (.nullRes, s)
  | f + 1, acc, s =>
    match ParseExpressionF f s with
    | (none, s1) => (.nullRes, s1)
    | (some Arg, s1) =>
      let acc2 := acc ++ [Arg]
      if s1.CurTok = .ch ')' then (.ok acc2, s1)
      else if s1.CurTok ≠ .ch ',' then
        (.errRes, LogErrorMsg s1 "Expected \x27)\x27 or \x27,\x27 in argument list")
      else ParseArgsF f acc2 (getNextToken s1)

/-- Models `ParseVarExpr` (lines 372-412).  Note that the `'in'` check at
line 402 reads the `IdentifierStr` global, not `CurTok`. -/
def ParseVarExprF : ℕ → PState → Option ExprAST × PState
  | 0, s => (none, s)
  | f + 1, s =>
    let s1 := getNextToken s
    if s1.CurTok ≠ .ident then LogErrorE "expected identifier after var" s1
    else
      match ParseVarListF f [] s1 with
      | (.nullRes, s2) => (none, s2)
      | (.errRes, s2) => (some .DummyExpr, s2)
      | (.ok vs, s2) =>
        if s2.lex.IdentifierStr ≠ "in" then
          LogErrorE "expected \x27in\x27 after variable declaration" s2
        else
          let s3 := getNextToken s2
          match ParseExpressionF f s3 with
          | (none, s4) => (none, s4)
          | (some Body, s4) => (some (.VarExpr vs Body), s4)

/-- The binding-list `while(true)` loop of `ParseVarExpr` (lines 380-400);
entered with `CurTok = tok_identifier`. -/
def ParseVarListF : ℕ → List (String × Option ExprAST) → PState → VarLoopRes × PState
  | 0, _, s => (.nullRes, s)
  | f + 1, acc, s =>
    let Name := s.lex.IdentifierStr
    let s1 := getNextToken s
    let initRes : Option (Option ExprAST) × PState :=
      if s1.CurTok = .ch '=' then
        let s2 := getNextToken s1
        match ParseExpressionF f s2 with
        | (none, s3) => (none, s3)
        | (some e, s3) => (some (some e), s3)
      else (some none, s1)
    match initRes with
    | (none, s3) => (.nullRes, s3)
    | (some init, s3) =>
      let acc2 := acc ++ [(Name, init)]
      if s3.CurTok ≠ .ch ',' then (.ok acc2, s3)
      else
        let s4 := getNextToken s3
        if s4.CurTok ≠ .ident then
          (.errRes, LogErrorMsg s4 "expected identifier after \x27,\x27")
        else ParseVarListF f acc2 s4

end

/-- The prototype argument loop (lines 468-469): `while (getNextToken() ==
tok_identifier) ArgNames.push_back(IdentifierStr);` — note it calls
`getNextToken` first, eating the `'('`. -/
def protoArgsLoopF : ℕ → List String → PState → List String × PState
  | 0, acc, s => (acc, s)
  | f + 1, acc, s =>
    let s1 := getNextToken s
    if s1.CurTok = .ident then protoArgsLoopF f (acc ++ [s1.lex.IdentifierStr]) s1
    else (acc, s1)

/-- Models `ParsePrototype` (lines 457-476). -/
def ParsePrototypeF (f : ℕ) (s : PState) : Option PrototypeAST × PState :=
  if s.CurTok ≠ .ident then LogErrorP "Expected function name in prototype" s
  else
    let FnName := s.lex.IdentifierStr
    let s1 := getNextToken s
    if s1.CurTok ≠ .ch '(' then LogErrorP "Expected \x27(\x27 in prototype" s1
    else
      let (ArgNames, s2) := protoArgsLoopF f [] s1
      if s2.CurTok ≠ .ch ')' then LogErrorP "Expected \x27)\x27 in prototype" s2
      else (some ⟨FnName, ArgNames⟩, getNextToken s2)

/-- Models `ParseDefinition` (lines 478-487). -/
def ParseDefinitionF (f : ℕ) (s : PState) : Option FunctionAST × PState :=
  let s1 := getNextToken s
  match ParsePrototypeF f s1 with
  | (none, s2) => (none, s2)
  | (some Proto, s2) =>
    match ParseExpressionF f s2 with
    | (some E, s3) => (some ⟨Proto, E⟩, s3)
    | (none, s3) => (none, s3)

/-- Models `ParseExtern` (lines 489-492). -/
def ParseExternF (f : ℕ) (s : PState) : Option PrototypeAST × PState :=
  let s1 := getNextToken s
  ParsePrototypeF f s1

/-! ## IR model (the LLVM objects the program manipulates)

`llvm::Value` pointers are modelled as references: floating constants,
function arguments (by position), or results of previously emitted
instructions (by position in the current function's instruction list).
A function is its name, its argument names (set by `PrototypeAST::codegen`)
and an optional body: `none` is a bare declaration, `some l` a function with
an entry block holding the instruction list `l`. -/

/-- Models `llvm::Value*`. -/
inductive Value where
  | constFP (q : ℚ)
  | arg (idx : ℕ)
  | instrRef (idx : ℕ)
deriving DecidableEq, Repr

/-- The IR instructions the program emits through `IRBuilder`. -/
inductive Instr where
  | fadd (l r : Value)
  | fsub (l r : Value)
  | fmul (l r : Value)
  | fcmpult (l r : Value)
  | uitofp (v : Value)
  | alloca (nm : String)
  | store (v : Value) (p : Value)
  | load (p : Value)
  | callInstr (callee : String) (args : List Value)
  | ret (v : Value)

/-- Models `llvm::Function` inside `TheModule`. -/
structure FunctionIR where
  name : String
  argNames : List String
  body : Option (List Instr)

/-- Models `TheModule->getFunction(name)` (first function of that name;
LLVM keeps module symbol names unique). -/
def getFunction : List FunctionIR → String → Option FunctionIR
  | [], _ => none
  | g :: rest, n => if g.name = n then some g else getFunction rest n

/-- Replaces the body of the (first) function named `n`. -/
def setBody : List FunctionIR → String → Option (List Instr) → List FunctionIR
  | [], _, _ => []
  | g :: rest, n, b => if g.name = n then { g with body := b } :: rest else g :: setBody rest n b

/-- Models `BasicBlock::Create(.., "entry", F)` (line 248): a declaration
gets an empty entry block; a function that already has instructions keeps
them (the new block is appended after the existing ones, so subsequent
emission appends to the instruction sequence). -/
def setEntry : List FunctionIR → String → List FunctionIR
  | [], _ => []
  | g :: rest, n =>
    if g.name = n then { g with body := some (g.body.getD []) } :: rest
    else g :: setEntry rest n

/-- Models `TheFunction->eraseFromParent()` (line 261): remove the function
from the module. -/
def eraseFunction : List FunctionIR → String → List FunctionIR
  | [], _ => []
  | g :: rest, n => if g.name = n then rest else g :: eraseFunction rest n

/-- Number of occurrences of `n` in a list of symbol names (for stating the
LLVM invariant that module symbol names are unique). -/
def countN : List String → String → ℕ
  | [], _ => 0
  | m :: rest, n => (if m = n then 1 else 0) + countN rest n

/-! ## The scope environment `NamedValues` (std::map<std::string, Value*>)

An association list from names to `Option Value`; the value `none` models a
null `llvm::Value*` (which is what `operator[]` default-inserts for an
absent key, and what lookups treat as "unknown variable"). -/

/-- Whether the map holds an entry for `n`, and that entry's (possibly
null) pointer value. -/
def mapFind : List (String × Option Value) → String → Option (Option Value)
  | [], _ => none
  | (k, v) :: rest, n => if k = n then some v else mapFind rest n

/-- Models assignment through `operator[]`: overwrite the entry if the key
is present, insert it otherwise. -/
def mapSet : List (String × Option Value) → String → Option Value → List (String × Option Value)
  | [], n, v => [(n, v)]
  | (k, w) :: rest, n, v =>
    if k = n then (k, v) :: rest else (k, w) :: mapSet rest n v

/-- Models a read through `std::map::operator[]`: return the stored pointer
(null for an inserted-on-demand entry), together with the possibly grown
map — an absent key is INSERTED with a null value. -/
def mapIndexRead (m : List (String × Option Value)) (n : String) :
    Option Value × List (String × Option Value) :=
  match mapFind m n with
  | some v => (v, m)
  | none => (none, mapSet m n none)

/-- The name-to-storage-handle view of the scope: the handle a lookup
actually sees (a null entry is indistinguishable from an absent one). -/
def lookupHandle (m : List (String × Option Value)) (n : String) : Option Value :=
  (mapFind m n).bind id

/-! ## Code generator state -/

/-- The code generator's global state: `NamedValues`, `TheModule`, the
builder's insert point (the function whose entry block is being filled),
and the stderr log of `LogError<llvm::Value*>`. -/
structure CGState where
  NamedValues : List (String × Option Value)
  TheModule : List FunctionIR
  curFn : Option String
  errors : List String

/-- Models `LogError<llvm::Value*>` (lines 92-96): log and return null. -/
def logErrorV (msg : String) (s : CGState) : Option Value × CGState :=
  (none, { s with errors := s.errors ++ [msg] })

/-- Appends an instruction at the builder's insert point and returns the
`Value` referring to its result.  An unset insert point is undefined
behaviour in the source and never reached in the modelled flows; it is
mapped to a no-op returning the zero constant. -/
def emit (s : CGState) (i : Instr) : Value × CGState :=
  match s.curFn with
  | none => (.constFP 0, s)
  | some fn =>
    match getFunction s.TheModule fn with
    | none => (.constFP 0, s)
    | some g =>
      let b := g.body.getD []
      (.instrRef b.length, { s with TheModule := setBody s.TheModule fn (some (b ++ [i])) })

/-! ## Expression codegen (src/toy.cpp lines 132-151, 163-180, 197-229,
497-506) -/

/-- The restore loop of `VarExprAST::codegen` (lines 224-226):
`NamedValues[VarNames[i].first] = OldBindings[i]` in order.  (The two lists
always have equal length; a shorter `OldBindings` would be out-of-bounds
`operator[]` in the C++ and is modelled as stopping.) -/
def restoreBindings :
    List (String × Option ExprAST) → List (Option Value) →
    List (String × Option Value) → List (String × Option Value)
  | [], _, m => m
  | _ :: _, [], m => m
  | (nm, _) :: rest, o :: orest, m => restoreBindings rest orest (mapSet m nm o)

mutual

/-- Models `ExprAST::codegen` for each node kind:
`NumberExprAST::codegen` (lines 497-499), `VariableExprAST::codegen`
(lines 501-506, including the `NamedValues[Name]` `operator[]` read),
`BinaryExprAST::codegen` (lines 132-151: both operands are lowered before
either is checked), `CallExprAST::codegen` (lines 163-180),
`VarExprAST::codegen` (lines 197-229: install bindings, lower body,
restore ONLY on the success path — the `if (!BodyVal) return nullptr;` at
lines 221-222 precedes the restore loop), and `DummyExprAST::codegen`
(lines 87-89: always null). -/
def codegenExprF : ℕ → ExprAST → CGState → Option Value × CGState
  | _, .NumberExpr v, s => (some (.constFP v), s)
  | _, .VariableExpr n, s =>
    let vr := mapIndexRead s.NamedValues n
    let s1 := { s with NamedValues := vr.2 }
    match vr.1 with
    | none => logErrorV "Unknown variable name" s1
    | some V =>
      let e := emit s1 (.load V)
      (some e.1, e.2)
  | 0, .BinaryExpr _ _ _, s => (none, s)
  | f + 1, .BinaryExpr Op LHS RHS, s =>
    let r1 := codegenExprF f LHS s
    let r2 := codegenExprF f RHS r1.2
    match r1.1, r2.1 with
    | some l, some r =>
      if Op = '+' then
        let e := emit r2.2 (.fadd l r)
        (some e.1, e.2)
      else if Op = '-' then
        let e := emit r2.2 (.fsub l r)
        (some e.1, e.2)
      else if Op = '*' then
        let e := emit r2.2 (.fmul l r)
        (some e.1, e.2)
      else if Op = '<' then
        let e := emit r2.2 (.fcmpult l r)
        let e2 := emit e.2 (.uitofp e.1)
        (some e2.1, e2.2)
      else logErrorV "invalid binary operator" r2.2
    | _, _ => (none, r2.2)
  | 0, .CallExpr _ _, s => (none, s)
  | f + 1, .CallExpr Callee Args, s =>
    match getFunction s.TheModule Callee with
    | none => logErrorV "Unknown function referenced" s
    | some CalleeF =>
      if CalleeF.argNames.length ≠ Args.length then
        logErrorV "Incorrect # arguments passed" s
      else
        let ar := codegenArgsF f Args [] s
        match ar.1 with
        | none => (none, ar.2)
        | some ArgsV =>
          let e := emit ar.2 (.callInstr Callee ArgsV)
          (some e.1, e.2)
  | 0, .VarExpr _ _, s => (none, s)
  | f + 1, .VarExpr VarNames Body, s =>
    let vr := codegenVarsF f VarNames [] s
    match vr.1 with
    | none => (none, vr.2)
    | some OldBindings =>
      let br := codegenExprF f Body vr.2
      match br.1 with
      | none => (none, br.2)
      | some BodyVal =>
        (some BodyVal,
         { br.2 with NamedValues := restoreBindings VarNames OldBindings br.2.NamedValues })
  | _, .DummyExpr, s => (none, s)

/-- The argument loop of `CallExprAST::codegen` (lines 171-177): lower each
argument left to right, returning null at the first failure. -/
def codegenArgsF : ℕ → List ExprAST → List Value → CGState → Option (List Value) × CGState
  | _, [], acc, s => (some acc, s)
  | 0, _ :: _, _, s => (none, s)
  | f + 1, a :: rest, acc, s =>
    let r := codegenExprF f a s
    match r.1 with
    | none => (none, r.2)
    | some v => codegenArgsF f rest (acc ++ [v]) r.2

/-- The binding-install loop of `VarExprAST::codegen` (lines 202-218):
lower the initializer (failure returns null immediately, leaving the
already installed bindings in place), allocate storage, store, save the
previous `NamedValues[VarName]` (an `operator[]` read that inserts a null
entry for an absent key) and install the new alloca. -/
def codegenVarsF : ℕ → List (String × Option ExprAST) → List (Option Value) → CGState →
    Option (List (Option Value)) × CGState
  | _, [], olds, s => (some olds, s)
  | 0, _ :: _, _, s => (none, s)
  | f + 1, (VarName, init) :: rest, olds, s =>
    let initRes : Option Value × CGState :=
      match init with
      | some e => codegenExprF f e s
      | none => (some (.constFP 0), s)
    match initRes.1 with
    | none => (none, initRes.2)
    | some InitVal =>
      let a := emit initRes.2 (.alloca VarName)
      let st := emit a.2 (.store InitVal a.1)
      let old := mapIndexRead st.2.NamedValues VarName
      let s4 := { st.2 with NamedValues := mapSet old.2 VarName (some a.1) }
      codegenVarsF f rest (olds ++ [old.1]) s4

end

/-! ## Prototype and function codegen (lines 50-62, 241-263) -/

/-- Models `PrototypeAST::codegen` (lines 50-62): create a declaration with
one double parameter per argument name (names set from `Args`) and return
its handle.  (Handles are function names; LLVM module symbol names are
unique in the modelled flows.) -/
def PrototypeAST.codegenP (p : PrototypeAST) (s : CGState) : String × CGState :=
  (p.Name, { s with TheModule := s.TheModule ++ [⟨p.Name, p.Args, none⟩] })

/-- Appends the parameter bindings of `FunctionAST::codegen`
(lines 252-253): `NamedValues[Arg.getName()] = &Arg`, binding each name to
the raw argument value (no stack storage). -/
def bindArgsList : List String → ℕ → List (String × Option Value) → List (String × Option Value)
  | [], _, m => m
  | nm :: rest, i, m => bindArgsList rest (i + 1) (mapSet m nm (some (.arg i)))

/-- Lines 241-253 of `FunctionAST::codegen`: fetch or declare the function,
create its entry block and point the builder at it, clear `NamedValues`
entirely, and bind each of the function's parameter names (the names on the
EXISTING function object) to its incoming argument value. -/
def FunctionAST.entryState (fn : FunctionAST) (s : CGState) : CGState :=
  let s1 :=
    match getFunction s.TheModule fn.Proto.Name with
    | some _ => s
    | none => (fn.Proto.codegenP s).2
  let s2 := { s1 with TheModule := setEntry s1.TheModule fn.Proto.Name,
                      curFn := some fn.Proto.Name }
  let argNs := ((getFunction s2.TheModule fn.Proto.Name).map (·.argNames)).getD []
  { s2 with NamedValues := bindArgsList argNs 0 [] }

/-- Models `FunctionAST::codegen` (lines 241-263): after the entry
preparation, lower the body; on success emit the return and run
`verifyFunction` (whose result the source ignores); on failure erase the
function from the module and return null. -/
def FunctionAST.codegenF (fuel : ℕ) (fn : FunctionAST) (s : CGState) :
    Option String × CGState :=
  let s4 := fn.entryState s
  match codegenExprF fuel fn.Body s4 with
  | (some RetVal, s5) =>
    let (_, s6) := emit s5 (.ret RetVal)
    (some fn.Proto.Name, s6)
  | (none, s5) =>
    (none, { s5 with TheModule := eraseFunction s5.TheModule fn.Proto.Name })

/-! ## Top-level driver (src/toy.cpp lines 508-569) -/

/-- The full interpreter state: parser globals plus code generator
globals. -/
structure REPLState where
  p : PState
  cg : CGState

/-- Fuel budget used by the concrete driver runs below; generous for every
input exercised (fuel is peeled lazily, only as deep as the actual
recursion). -/
def bigFuel : ℕ := 1000

/-- The `tok_def` case of `main`'s loop (lines 542-552): parse a definition
and lower it (printing omitted); on a null parse skip one token. -/
def HandleDefinitionD (st : REPLState) : REPLState :=
  match ParseDefinitionF bigFuel st.p with
  | (some FnAST, p1) =>
    let (_, cg1) := FunctionAST.codegenF bigFuel FnAST st.cg
    ⟨p1, cg1⟩
  | (none, p1) => ⟨getNextToken p1, st.cg⟩

/-- The `tok_extern` case of `main`'s loop (lines 553-563). -/
def HandleExternD (st : REPLState) : REPLState :=
  match ParseExternF bigFuel st.p with
  | (some ProtoAST, p1) =>
    let (_, cg1) := ProtoAST.codegenP st.cg
    ⟨p1, cg1⟩
  | (none, p1) => ⟨getNextToken p1, st.cg⟩

/-- Models `HandleTopLevelExpression` (lines 508-520): wrap the expression
in an anonymous nullary `FunctionAST` named `__anon_expr` and lower it. -/
def HandleTopLevelExpressionD (st : REPLState) : REPLState :=
  match ParseExpressionF bigFuel st.p with
  | (some E, p1) =>
    let Proto : PrototypeAST := ⟨"__anon_expr", []⟩
    let FnAST : FunctionAST := ⟨Proto, E⟩
    let (_, cg1) := FunctionAST.codegenF bigFuel FnAST st.cg
    ⟨p1, cg1⟩
  | (none, p1) => ⟨getNextToken p1, st.cg⟩

/-- The `while(true)` switch of `main` (lines 534-568), one unit per
recursive step. -/
def mainLoopF : ℕ → REPLState → REPLState
  | 0, st => st
  | f + 1, st =>
    match st.p.CurTok with
    | .eof => st
    | .ch ';' => mainLoopF f ⟨getNextToken st.p, st.cg⟩
    | .kDef => mainLoopF f (HandleDefinitionD st)
    | .kExtern => mainLoopF f (HandleExternD st)
    | _ => mainLoopF f (HandleTopLevelExpressionD st)

/-- Initial code generator state (lines 522-525): empty scope, empty
module, no insert point. -/
def initCG : CGState := ⟨[], [], none, []⟩

/-- Initial interpreter state on a given input string: `LastChar = ' '`
(line 267), then the priming `getNextToken()` of line 532. -/
def initREPL (src : String) : REPLState :=
  let lx : LexSt := ⟨some ' ', src.toList, "", 0⟩
  let p0 : PState := ⟨lx, .eof, []⟩
  ⟨getNextToken p0, initCG⟩

/-- Runs the whole program on an input string. -/
def run (src : String) : REPLState :=
  mainLoopF bigFuel (initREPL src)

/-! ## Evaluator for the emitted IR

Gives the emitted module its LLVM meaning on straight-line entry blocks: a
`load` has a value only when its address operand is the result of an
`alloca` (a storage handle) — loading from a non-pointer value such as a
double argument is ill-typed IR with no defined result. -/

/-- Runtime values: doubles, booleans (`i1`, from `fcmp`), and pointers to
allocated cells. -/
inductive RtVal where
  | num (q : ℚ)
  | i1 (b : Bool)
  | ptr (c : ℕ)
deriving DecidableEq, Repr

/-- Evaluates an operand: constants, the executing function's arguments, or
results of already executed instructions. -/
def evalOperand (args : List ℚ) (env : List RtVal) : Value → Option RtVal
  | .constFP q => some (.num q)
  | .arg i => (args.get? i).map .num
  | .instrRef i => env.get? i

/-- An operand required at double type. -/
def evalOperandNum (args : List ℚ) (env : List RtVal) (v : Value) : Option ℚ :=
  match evalOperand args env v with
  | some (.num q) => some q
  | _ => none

/-- Operand list at double type (call arguments). -/
def evalOperandsNum (args : List ℚ) (env : List RtVal) : List Value → Option (List ℚ)
  | [] => some []
  | v :: rest =>
    match evalOperandNum args env v, evalOperandsNum args env rest with
    | some q, some qs => some (q :: qs)
    | _, _ => none

mutual

/-- Executes a function from the module on argument values. -/
def evalFunc : ℕ → List FunctionIR → String → List ℚ → Option ℚ
  | 0, _, _, _ => none
  | fuel + 1, mod, fname, args =>
    match getFunction mod fname with
    | none => none
    | some f =>
      match f.body with
      | none => none
      | some instrs => evalBody fuel mod args instrs [] []

/-- Executes an instruction list in order, extending the environment with
each instruction's result, until a `ret`. -/
def evalBody : ℕ → List FunctionIR → List ℚ → List Instr → List RtVal → List (Option ℚ) →
    Option ℚ
  | 0, _, _, _, _, _ => none
  | _ + 1, _, _, [], _, _ => none
  | fuel + 1, mod, args, i :: rest, env, cells =>
    match i with
    | .ret v => evalOperandNum args env v
    | .fadd l r =>
      match evalOperandNum args env l, evalOperandNum args env r with
      | some a, some b => evalBody fuel mod args rest (env ++ [.num (a + b)]) cells
      | _, _ => none
    | .fsub l r =>
      match evalOperandNum args env l, evalOperandNum args env r with
      | some a, some b => evalBody fuel mod args rest (env ++ [.num (a - b)]) cells
      | _, _ => none
    | .fmul l r =>
      match evalOperandNum args env l, evalOperandNum args env r with
      | some a, some b => evalBody fuel mod args rest (env ++ [.num (a * b)]) cells
      | _, _ => none
    | .fcmpult l r =>
      match evalOperandNum args env l, evalOperandNum args env r with
      | some a, some b => evalBody fuel mod args rest (env ++ [.i1 (decide (a < b))]) cells
      | _, _ => none
    | .uitofp v =>
      match evalOperand args env v with
      | some (.i1 b) =>
        evalBody fuel mod args rest (env ++ [.num (if b then 1 else 0)]) cells
      | _ => none
    | .alloca _ =>
      evalBody fuel mod args rest (env ++ [.ptr cells.length]) (cells ++ [none])
    | .store v p =>
      match evalOperandNum args env v, evalOperand args env p with
      | some q, some (.ptr c) =>
        evalBody fuel mod args rest (env ++ [.num 0]) (cells.set c (some q))
      | _, _ => none
    | .load p =>
      match evalOperand args env p with
      | some (.ptr c) =>
        match cells.get? c with
        | some (some q) => evalBody fuel mod args rest (env ++ [.num q]) cells
        | _ => none
      | _ => none
    | .callInstr callee cargs =>
      match evalOperandsNum args env cargs with
      | none => none
      | some vals =>
        match evalFunc fuel mod callee vals with
        | none => none
        | some r => evalBody fuel mod args rest (env ++ [.num r]) cells

end

/-- Runs the program on `src` and executes the named emitted function with
no arguments. -/
def runEval (src : String) (fname : String) : Option ℚ :=
  evalFunc bigFuel (run src).cg.TheModule fname []

/-! ## Concrete inputs used by the claim theorems below -/

/-- Lexer state primed on the character run of the malformed literal. -/
def c9lex0 : LexSt := ⟨some ' ', "1.2.3".toList, "", 0⟩

/-- A codegen state inside a function `f` with an empty entry block: the
context in which an expression body is lowered. -/
def c1State : CGState := ⟨[], [⟨"f", [], some []⟩], some "f", []⟩

/-- `var x = 1 in zzz` — the body references an unknown name. -/
def c1Var : ExprAST := .VarExpr [("x", some (.NumberExpr 1))] (.VariableExpr "zzz")

/-- `var x = 1, y = zzz in 0` — a later initializer fails after `x` has
been installed. -/
def c1Var2 : ExprAST :=
  .VarExpr [("x", some (.NumberExpr 1)), ("y", some (.VariableExpr "zzz"))] (.NumberExpr 0)

/-- The state after installing the binding for `x` of `c1Var`. -/
def c1MidPair := codegenVarsF 9 [("x", some (ExprAST.NumberExpr 1))] [] c1State

/-- An empty codegen state (no scope entries). -/
def c3State : CGState := ⟨[], [], none, []⟩

/-- `def f(a)` with body `b`, an unknown variable: its lowering fails. -/
def c8fn : FunctionAST := ⟨⟨"f", ["a"]⟩, .VariableExpr "b"⟩

/-- A codegen state inside a function `g` whose scope binds `x` to the
storage allocated by g's first instruction. -/
def c10State : CGState :=
  ⟨[("x", some (.instrRef 0))], [⟨"g", [], some [.alloca "x"]⟩], some "g", []⟩

/-- The parse of the input `()` — a primary-expression parse failure inside
parentheses. -/
def c2parse := ParseExpressionF bigFuel (initREPL "()").p

/-! ## Helper lemmas about the scope map -/

theorem mapFind_mapSet (m : List (String × Option Value)) (k : String)
    (v : Option Value) (n : String) :
    mapFind (mapSet m k v) n = if k = n then some v else mapFind m n := by
  induction m with
  | nil => simp [mapSet, mapFind]
  | cons a rest ih =>
    obtain ⟨ak, aw⟩ := a
    simp only [mapSet]
    by_cases h1 : ak = k
    · by_cases h2 : ak = n
      · have hk : k = n := h1.symm.trans h2
        simp [mapFind, if_pos h1, if_pos h2, if_pos hk]
      · have hk : ¬ k = n := fun hh => h2 (h1.trans hh)
        simp [mapFind, if_pos h1, if_neg h2, if_neg hk]
    · by_cases h2 : ak = n
      · have hk : ¬ k = n := fun hh => h1 (h2.trans hh.symm)
        simp [mapFind, if_neg h1, if_pos h2, if_neg hk]
      · simp [mapFind, if_neg h1, if_neg h2, ih]

theorem lookupHandle_mapSet_none (m : List (String × Option Value)) (n x : String)
    (h : mapFind m n = none) :
    lookupHandle (mapSet m n none) x = lookupHandle m x := by
  unfold lookupHandle
  rw [mapFind_mapSet]
  by_cases hx : n = x
  · subst hx
    rw [h]
    simp
  · simp [hx]

/-! ## Helper lemmas about the emitter and the module -/

theorem logErrorV_NamedValues (msg : String) (s : CGState) :
    ((logErrorV msg s).2).NamedValues = s.NamedValues := rfl

theorem logErrorV_TheModule (msg : String) (s : CGState) :
    ((logErrorV msg s).2).TheModule = s.TheModule := rfl

theorem emit_NamedValues (s : CGState) (i : Instr) :
    ((emit s i).2).NamedValues = s.NamedValues := by
  unfold emit
  split
  · rfl
  · split
    · rfl
    · rfl

theorem setBody_map_name (mod : List FunctionIR) (n : String) (b : Option (List Instr)) :
    (setBody mod n b).map FunctionIR.name = mod.map FunctionIR.name := by
  induction mod with
  | nil => rfl
  | cons g rest ih =>
    by_cases h : g.name = n <;> simp [setBody, h, ih]

theorem setEntry_map_name (mod : List FunctionIR) (n : String) :
    (setEntry mod n).map FunctionIR.name = mod.map FunctionIR.name := by
  induction mod with
  | nil => rfl
  | cons g rest ih =>
    by_cases h : g.name = n <;> simp [setEntry, h, ih]

theorem emit_map_name (s : CGState) (i : Instr) :
    ((emit s i).2).TheModule.map FunctionIR.name = s.TheModule.map FunctionIR.name := by
  unfold emit
  split
  · rfl
  · split
    · rfl
    · simp [setBody_map_name]

theorem countN_append (l1 l2 : List String) (n : String) :
    countN (l1 ++ l2) n = countN l1 n + countN l2 n := by
  induction l1 with
  | nil => simp [countN]
  | cons m rest ih => simp [countN, ih]; omega

theorem countN_zero_getFunction (mod : List FunctionIR) (n : String)
    (h : countN (mod.map FunctionIR.name) n = 0) : getFunction mod n = none := by
  induction mod with
  | nil => rfl
  | cons g rest ih =>
    simp [countN] at h
    by_cases hg : g.name = n
    · simp [hg] at h
    · simp [getFunction, hg]
      exact ih (by simpa [hg] using h)

theorem getFunction_none_countN (mod : List FunctionIR) (n : String)
    (h : getFunction mod n = none) : countN (mod.map FunctionIR.name) n = 0 := by
  induction mod with
  | nil => rfl
  | cons g rest ih =>
    by_cases hg : g.name = n
    · simp [getFunction, hg] at h
    · simp [getFunction, hg] at h
      simp [countN, hg, ih h]

theorem getFunction_erase_of_le_one (mod : List FunctionIR) (n : String)
    (h : countN (mod.map FunctionIR.name) n ≤ 1) :
    getFunction (eraseFunction mod n) n = none := by
  induction mod with
  | nil => rfl
  | cons g rest ih =>
    by_cases hg : g.name = n
    · simp [eraseFunction, hg]
      apply countN_zero_getFunction
      simp [countN, hg] at h
      omega
    · simp [eraseFunction, getFunction, hg]
      apply ih
      simp [countN, hg] at h
      exact h

/-- The module's symbol-name sequence. -/
def modNames (s : CGState) : List String := s.TheModule.map FunctionIR.name

theorem emit_modNames (s : CGState) (i : Instr) : modNames (emit s i).2 = modNames s := by
  unfold modNames
  exact emit_map_name s i

theorem logErrorV_modNames (msg : String) (s : CGState) :
    modNames (logErrorV msg s).2 = modNames s := rfl

theorem variableExpr_modNames (f : ℕ) (n : String) (s : CGState) :
    modNames (codegenExprF f (.VariableExpr n) s).2 = modNames s := by
  simp only [codegenExprF]
  split
  · rfl
  · simp only [modNames]
    rw [emit_map_name]

/-- Expression codegen never adds or removes module functions, nor renames
one: the module's symbol-name sequence is invariant (only instruction
bodies grow). -/
theorem codegen_modNames (f : ℕ) :
    (∀ e s, modNames (codegenExprF f e s).2 = modNames s)
  ∧ (∀ es acc s, modNames (codegenArgsF f es acc s).2 = modNames s)
  ∧ (∀ vs olds s, modNames (codegenVarsF f vs olds s).2 = modNames s) := by
  induction f with
  | zero =>
    refine ⟨?_, ?_, ?_⟩
    · intro e s
      cases e with
      | NumberExpr v => rfl
      | VariableExpr n => exact variableExpr_modNames 0 n s
      | BinaryExpr op l r => rfl
      | CallExpr c as => rfl
      | VarExpr vs b => rfl
      | DummyExpr => rfl
    · intro es acc s
      cases es with
      | nil => rfl
      | cons a rest => rfl
    · intro vs olds s
      cases vs with
      | nil => rfl
      | cons a rest => obtain ⟨nm, init⟩ := a; rfl
  | succ f ih =>
    obtain ⟨ihE, ihA, ihV⟩ := ih
    refine ⟨?_, ?_, ?_⟩
    · intro e s
      cases e with
      | NumberExpr v => rfl
      | VariableExpr n => exact variableExpr_modNames (f + 1) n s
      | DummyExpr => rfl
      | BinaryExpr op l r =>
        simp only [codegenExprF]
        split
        · split_ifs <;> simp [emit_modNames, logErrorV_modNames, ihE]
        · simp [ihE]
      | CallExpr c as =>
        simp only [codegenExprF]
        split
        · rfl
        · split_ifs
          · rfl
          · split
            · simp [ihA]
            · simp [emit_modNames, ihA]
      | VarExpr vs b =>
        simp only [codegenExprF]
        split
        · simp [ihV]
        · split
          · simp [ihE, ihV]
          · simp [modNames] at ihE ihV ⊢
            rw [ihE, ihV]
    · intro es acc s
      cases es with
      | nil => rfl
      | cons a rest =>
        simp only [codegenArgsF]
        split
        · simp [ihE]
        · simp [ihA, ihE]
    · intro vs olds s
      cases vs with
      | nil => rfl
      | cons a rest =>
        obtain ⟨nm, init⟩ := a
        simp only [codegenVarsF]
        split
        · cases init <;> simp [ihE]
        · simp only [modNames] at ihE ihV ⊢
          rw [ihV]
          simp only [emit_map_name]
          cases init
          · rfl
          · exact ihE _ _

theorem entryState_countN (fn : FunctionAST) (s : CGState)
    (h : countN (modNames s) fn.Proto.Name ≤ 1) :
    countN (modNames (fn.entryState s)) fn.Proto.Name ≤ 1 := by
  unfold FunctionAST.entryState
  cases hg : getFunction s.TheModule fn.Proto.Name with
  | some g =>
    simp only [hg, modNames]
    rw [setEntry_map_name]
    exact h
  | none =>
    simp only [hg, modNames, PrototypeAST.codegenP]
    rw [setEntry_map_name, List.map_append, countN_append,
        getFunction_none_countN s.TheModule fn.Proto.Name hg]
    simp [countN]

/-! ## Runs of the driver on the concrete inputs of the claims -/

/-- The two-unit run of the function-call example. -/
def c4run : REPLState := run "def add(a b) a + b; add(4,5);"

/-- The run of the scoping example. -/
def c5run : REPLState := run "var x = 5, y = x + 2 in x * y;"

/-- The run of the shadowing example. -/
def c6run : REPLState := run "var x = 1 in (var x = x + 1 in x);"

/-- The prototype-rule parse failure: a number where a function name is
required. -/
def c2protoParse := ParsePrototypeF bigFuel (initREPL "9").p

/-- The primary-rule parse failure: `)` where an expression is required. -/
def c2primParse := ParsePrimaryF bigFuel (initREPL ")").p

/-! ## The claims -/

/-- Claim C1, as stated, is false on the code: when the body of a
`VarBinding` fails to lower, `VarExprAST::codegen` returns null BEFORE the
restore loop (lines 221-226), so the saved prior handle (here: absent) is
NOT reinstated — after the failing lowering of `var x = 1 in zzz` the scope
still maps `x` to the freshly allocated storage instead of its prior absent
state; likewise when a later binding's initializer fails (`var x = 1,
y = zzz in 0`), the earlier installed binding `x` stays installed. -/
theorem C1_counterexample :
    (codegenExprF 10 c1Var c1State).1 = none
  ∧ mapFind ((codegenExprF 10 c1Var c1State).2).NamedValues "x"
      = some (some (Value.instrRef 0))
  ∧ (codegenExprF 10 c1Var2 c1State).1 = none
  ∧ mapFind ((codegenExprF 10 c1Var2 c1State).2).NamedValues "x"
      = some (some (Value.instrRef 0)) := by
  refine ⟨?_, ?_, ?_, ?_⟩ <;> rfl

/-- Claim C1 (amended): if the body of a `VarBinding` fails to lower, the
whole `VarBinding` lowering fails and the scope is returned exactly as the
body's lowering left it — the bindings installed by the `VarBinding` are
NOT restored (the restore loop runs only on the success path).  The failure
state `s2` of the body is propagated unchanged. -/
theorem C1_theorem (f : ℕ) (vs : List (String × Option ExprAST))
    (olds : List (Option Value)) (b : ExprAST) (s s1 s2 : CGState)
    (h1 : codegenVarsF f vs [] s = (some olds, s1))
    (h2 : codegenExprF f b s1 = (none, s2)) :
    codegenExprF (f + 1) (.VarExpr vs b) s = (none, s2) := by
  simp only [codegenExprF, h1, h2]

/-- Witness for C1_theorem at the concrete binding list of `c1Var`. -/
theorem C1_witness :
    codegenExprF 10 c1Var c1State
      = (none, (codegenExprF 9 (ExprAST.VariableExpr "zzz") c1MidPair.2).2) :=
  C1_theorem 9 [("x", some (ExprAST.NumberExpr 1))] [none] (ExprAST.VariableExpr "zzz")
    c1State c1MidPair.2 ((codegenExprF 9 (ExprAST.VariableExpr "zzz") c1MidPair.2).2)
    (by rfl) (by rfl)

/-- Claim C2, as stated, is false on the code: an expression-level parse
failure does NOT return a value distinguishable from a successfully parsed
AST.  Parsing `()` hits "unknown token when expecting an expression" inside
the parentheses, yet `ParseExpression` returns a non-null `DummyExprAST` —
the same success shape every caller's null-check accepts (the diagnostic is
only logged). -/
theorem C2_counterexample :
    c2parse.1 = some ExprAST.DummyExpr
  ∧ c2parse.2.errors = ["unknown token when expecting an expression"] := by
  exact ⟨rfl, rfl⟩

/-- Claim C2 (amended): prototype-rule parse failures do return a
distinguished null result with a diagnostic, but expression-rule parse
failures log the diagnostic and return a non-null `DummyExprAST` that
callers treat as a successfully parsed expression; the failure only
resurfaces at lowering time, where `DummyExprAST::codegen` returns null
without touching any state.  (No parse failure throws or aborts: every
failure is a returned value.) -/
theorem C2_theorem :
    c2protoParse.1 = none
  ∧ c2protoParse.2.errors = ["Expected function name in prototype"]
  ∧ c2primParse.1 = some ExprAST.DummyExpr
  ∧ c2primParse.2.errors = ["unknown token when expecting an expression"]
  ∧ ∀ (f : ℕ) (s : CGState), codegenExprF f ExprAST.DummyExpr s = (none, s) := by
  refine ⟨rfl, rfl, rfl, rfl, fun f s => ?_⟩
  cases f <;> rfl

/-- Claim C3, as stated, is false on the code: lowering a `VariableRef`
whose name is not in scope DOES change the mapping's set of entries —
`NamedValues[Name]` is a `std::map::operator[]` read (line 502), which
default-inserts a null entry for the absent key.  Starting from an empty
scope, lowering `y` fails but leaves the entry `("y", null)` behind. -/
theorem C3_counterexample :
    ((codegenExprF 1 (.VariableExpr "y") c3State).2).NamedValues = [("y", none)]
  ∧ c3State.NamedValues = []
  ∧ (codegenExprF 1 (.VariableExpr "y") c3State).1 = none := by
  exact ⟨rfl, rfl, rfl⟩

/-- Claim C3 (amended): lowering a `VariableRef` never changes the
name-to-storage-handle mapping that lookups observe — for an absent name it
inserts a null placeholder entry (indistinguishable from absence to every
lookup, which goes through the same `operator[]` and treats null as
"unknown variable"), and for a present name it changes nothing.  The
handles themselves are mutated only by `VarBinding` codegen and
function-entry codegen. -/
theorem C3_theorem (f : ℕ) (n : String) (s : CGState) (x : String) :
    lookupHandle ((codegenExprF f (.VariableExpr n) s).2).NamedValues x
      = lookupHandle s.NamedValues x := by
  simp only [codegenExprF]
  rcases hm : mapFind s.NamedValues n with _ | v
  · simp only [mapIndexRead, hm]
    simpa [logErrorV] using lookupHandle_mapSet_none s.NamedValues n x hm
  · simp only [mapIndexRead, hm]
    cases v
    · simp [logErrorV]
    · simp [emit_NamedValues]

/-- Claim C4: the code contradicts it (and the repository README, which
documents that `add(4, 5)` returns 9).  Parameters ARE bound directly to
their incoming argument values and no stack storage is allocated for them
(the emitted `add` has no `alloca`), but `VariableExprAST::codegen`
(line 505) unconditionally emits a LOAD whose address operand is that raw
double argument value (`load (arg 0)`, `load (arg 1)` below) — ill-typed IR
(a load requires a pointer address), so referencing a parameter does not
yield the incoming argument value, and executing `__anon_expr` (the wrapped
`add(4,5)`) has no defined result: the evaluator, which gives `load` a
meaning only at storage handles, fails instead of producing 9.0.  No
lowering error is even reported (`verifyFunction`'s result is ignored). -/
theorem C4_theorem :
    ((getFunction c4run.cg.TheModule "add").map (fun g => (g.argNames, g.body)))
      = some (["a", "b"],
          some [.load (.arg 0), .load (.arg 1),
                .fadd (.instrRef 0) (.instrRef 1), .ret (.instrRef 2)])
  ∧ evalFunc bigFuel c4run.cg.TheModule "__anon_expr" [] = none
  ∧ evalFunc bigFuel c4run.cg.TheModule "__anon_expr" [] ≠ some 9
  ∧ c4run.cg.errors = [] := by
  have hnone : evalFunc bigFuel c4run.cg.TheModule "__anon_expr" [] = none := by
    with_unfolding_all rfl
  refine ⟨by with_unfolding_all rfl, hnone, ?_, by with_unfolding_all rfl⟩
  rw [hnone]
  exact fun h => Option.noConfusion h

/-- Claim C5: lowering `var x = 5, y = x + 2 in x * y;` yields 35.0, and
after the `VarBinding` lowering the scope holds no binding for `x` or `y`:
each was restored to its saved prior handle — here null/absent (the code
represents a prior absent binding as an `operator[]`-inserted null, which
every lookup treats as absent) — so a subsequent lookup of `x` or `y`
fails as an unknown variable. -/
theorem C5_theorem :
    runEval "var x = 5, y = x + 2 in x * y;" "__anon_expr" = some (35 : ℚ)
  ∧ c5run.cg.NamedValues = [("x", none), ("y", none)]
  ∧ lookupHandle c5run.cg.NamedValues "x" = none
  ∧ lookupHandle c5run.cg.NamedValues "y" = none
  ∧ (codegenExprF 1 (.VariableExpr "x") c5run.cg).1 = none
  ∧ (codegenExprF 1 (.VariableExpr "y") c5run.cg).1 = none := by
  refine ⟨?_, ?_, ?_, ?_, ?_, ?_⟩ <;> with_unfolding_all rfl

/-- Claim C6: `var x = 1 in (var x = x + 1 in x);` lowers to 2.0, and the
emitted instruction sequence shows the shadowing discipline: the inner
initializer `x + 1` is lowered BEFORE the inner binding is installed, so
its load (instruction 2) reads the OUTER alloca (instruction 0, holding
1.0), while the inner body's load (instruction 6) reads the inner alloca
(instruction 4, holding 2.0). -/
theorem C6_theorem :
    runEval "var x = 1 in (var x = x + 1 in x);" "__anon_expr" = some (2 : ℚ)
  ∧ ((getFunction c6run.cg.TheModule "__anon_expr").map FunctionIR.body)
      = some (some
          [.alloca "x", .store (.constFP 1) (.instrRef 0), .load (.instrRef 0),
           .fadd (.instrRef 2) (.constFP 1), .alloca "x",
           .store (.instrRef 3) (.instrRef 4), .load (.instrRef 4),
           .ret (.instrRef 6)]) := by
  refine ⟨?_, ?_⟩ <;> with_unfolding_all rfl

/-- Claim C7: with the precedence table of `main` ('<' 10, '+' 20, '-' 20,
'*' 40), precedence climbing binds `*` tighter than `+`/`-` and groups
equal precedences left-associatively: `1 + 2 * 3` lowers to the value of
`1 + (2 * 3)` (7.0), differing from `(1 + 2) * 3` (9.0), and `8 - 4 - 2`
lowers to 2.0, not 6.0. -/
theorem C7_theorem :
    runEval "1 + 2 * 3;" "__anon_expr" = some (7 : ℚ)
  ∧ runEval "1 + (2 * 3);" "__anon_expr" = some (7 : ℚ)
  ∧ runEval "(1 + 2) * 3;" "__anon_expr" = some (9 : ℚ)
  ∧ runEval "1 + 2 * 3;" "__anon_expr" ≠ runEval "(1 + 2) * 3;" "__anon_expr"
  ∧ runEval "8 - 4 - 2;" "__anon_expr" = some (2 : ℚ)
  ∧ GetTokPrecedence (.ch '*') = 40
  ∧ GetTokPrecedence (.ch '+') = 20
  ∧ GetTokPrecedence (.ch '-') = 20 := by
  have h1 : runEval "1 + 2 * 3;" "__anon_expr" = some (7 : ℚ) := by
    with_unfolding_all rfl
  have h3 : runEval "(1 + 2) * 3;" "__anon_expr" = some (9 : ℚ) := by
    with_unfolding_all rfl
  refine ⟨h1, by with_unfolding_all rfl, h3, ?_, by with_unfolding_all rfl, rfl, rfl, rfl⟩
  rw [h1, h3]
  norm_num

/-- Claim C8: when a `FunctionDef`'s body fails to lower, the function
fetched or freshly emitted for that definition is erased from the module
before the failure is returned (lines 255-262), so — given the LLVM
invariant that at most one module function carries that symbol name — the
module afterwards contains no function under the prototype's name.  (The
hypothesis `hfail` says the body's lowering, run in the function-entry
state, returns null; expression lowering never adds module functions, by
`codegen_modNames`.) -/
theorem C8_theorem (fuel : ℕ) (fn : FunctionAST) (s : CGState)
    (huniq : countN (modNames s) fn.Proto.Name ≤ 1)
    (hfail : (codegenExprF fuel fn.Body (fn.entryState s)).1 = none) :
    (FunctionAST.codegenF fuel fn s).1 = none
  ∧ getFunction ((FunctionAST.codegenF fuel fn s).2).TheModule fn.Proto.Name = none := by
  rcases hb : codegenExprF fuel fn.Body (fn.entryState s) with ⟨r, s5⟩
  have hr : r = none := by rw [hb] at hfail; exact hfail
  subst hr
  have hout : FunctionAST.codegenF fuel fn s
      = (none, { s5 with TheModule := eraseFunction s5.TheModule fn.Proto.Name }) := by
    simp only [FunctionAST.codegenF]
    rw [hb]
  rw [hout]
  refine ⟨rfl, ?_⟩
  apply getFunction_erase_of_le_one
  have hnames : modNames s5 = modNames (fn.entryState s) := by
    have hp := (codegen_modNames fuel).1 fn.Body (fn.entryState s)
    rw [hb] at hp
    exact hp
  have h2 := entryState_countN fn s huniq
  unfold modNames at hnames h2
  rw [hnames]
  exact h2

/-- Witness for C8_theorem: `def f(a) b` (body is the unknown variable `b`)
starting from the empty module. -/
theorem C8_witness :
    (FunctionAST.codegenF 10 c8fn initCG).1 = none
  ∧ getFunction ((FunctionAST.codegenF 10 c8fn initCG).2).TheModule "f" = none :=
  C8_theorem 10 c8fn initCG (by decide) (by rfl)

/-- Claim C9, as stated, is false on the code in its second half: lexing
`1.2.3` does produce a number token of value 1.2, but the characters `.3`
are NOT left unconsumed for later tokens — the number rule's do-while
(lines 286-289) consumes the entire digit-and-dot run into `NumStr`, so
after the first `gettok` the input is exhausted and the next token is
end-of-input, not anything derived from `.3`. -/
theorem C9_counterexample :
    (gettokRun c9lex0).2.input = []
  ∧ (gettokRun c9lex0).2.lastChar = none
  ∧ (gettokRun (gettokRun c9lex0).2).1 = CTok.eof := by
  exact ⟨rfl, rfl, rfl⟩

/-- Claim C9 (amended): lexing `1.2.3` produces a number token whose value
is 1.2 = 6/5 — `strtod` stops at the first unconvertible point — while the
unconverted suffix `.3` is leftover only to the numeric conversion: it has
already been consumed into the same token's text and is discarded, not
re-lexed. -/
theorem C9_theorem :
    (gettokRun c9lex0).1 = CTok.number
  ∧ (gettokRun c9lex0).2.NumVal = 6 / 5
  ∧ strtodQ "1.2.3" = 6 / 5 := by
  refine ⟨?_, ?_, ?_⟩ <;> with_unfolding_all rfl

/-- Claim C10: `BinaryExprAST::codegen` (lines 132-136) lowers the left
operand, then unconditionally lowers the right operand, and only afterwards
checks whether either failed: when the left operand's lowering fails, the
whole `BinaryOp` fails but the returned state is exactly the one the right
operand's lowering produced — its emitter side effects have occurred. -/
theorem C10_theorem (f : ℕ) (Op : Char) (LHS RHS : ExprAST) (s s1 : CGState)
    (h : codegenExprF f LHS s = (none, s1)) :
    codegenExprF (f + 1) (.BinaryExpr Op LHS RHS) s
      = (none, (codegenExprF f RHS s1).2) := by
  simp only [codegenExprF, h]

/-- Witness for C10_theorem: `nope + x` where `nope` is unknown (left
fails) and `x` is bound to storage — the right operand's `load` is emitted
into `g`'s body even though the whole `BinaryOp` fails. -/
theorem C10_witness :
    codegenExprF 2 (.BinaryExpr '+' (.VariableExpr "nope") (.VariableExpr "x")) c10State
      = (none, (codegenExprF 1 (.VariableExpr "x")
          (codegenExprF 1 (.VariableExpr "nope") c10State).2).2)
  ∧ ((getFunction ((codegenExprF 2
        (.BinaryExpr '+' (.VariableExpr "nope") (.VariableExpr "x")) c10State).2).TheModule
        "g").map FunctionIR.body)
      = some (some [.alloca "x", .load (.instrRef 0)]) :=
  ⟨C10_theorem 1 '+' (.VariableExpr "nope") (.VariableExpr "x") c10State
      ((codegenExprF 1 (.VariableExpr "nope") c10State).2) (by rfl),
   by rfl⟩
